import Mathlib

/-!
Shallow embedding of the contour hand-drawn border module of the food
journal app (source functions `createBorderMask`, `applyHandDrawnEffect`,
`applyContourBorder`, helper `random`, constant `DEFAULT_OPTIONS`).

Modelling conventions:
* A canvas is its alpha channel: an integer-indexed grid of alpha values
  (0..255).  Color channels are not tracked; every property under study
  is about the alpha channel (geometry), and the only color-dependent
  operation (`source-in` fill with an opaque color) leaves alpha as is.
* JavaScript numbers are modelled as rationals; literals such as 0.3,
  1.06, 1.5 are the corresponding exact rationals (IEEE rounding of
  these constants is not modelled).
* `drawImage` resampling is modelled as point sampling with floor (the
  browser's smoothing filter is not exactly representable); destination
  rectangle membership and clipping to the canvas are exact.
* `Math.random()` is modelled as an explicit supply `ℕ → ℚ` threaded
  through the stippling pass and consumed at an advancing cursor; the
  ambient supply is passed to every stage, so that independence from it
  expresses "this stage uses no randomness".  In the dash branch the
  values of `Math.cos`/`Math.sin` of the random angle are modelled as
  two further draws from the supply, since transcendental functions
  have no exact rational embedding.
* Filled/stroked primitives are rasterized crisply: a pixel is covered
  iff its integer coordinate point lies in the disk resp. round-capped
  segment (capsule).  `ctx.arc` throws an `IndexSizeError` for a
  negative radius; that exception — the one the surrounding try/catch
  blocks can actually see in this model — is threaded as an error
  result through the stipple loop up to the returned promise.  The
  canvas ignores assignments of a non-positive `lineWidth`, keeping the
  previous value (initially 1), which the loop state records.
-/

/-- Alpha-channel view of an HTML canvas (or of the decoded source
image): a width, a height and the alpha value at each integer pixel. -/
structure Canvas where
  width : ℤ
  height : ℤ
  alpha : ℤ → ℤ → ℕ

/-- Reading a pixel through the canvas API: out-of-bounds reads are
transparent. -/
def Canvas.read (c : Canvas) (x y : ℤ) : ℕ :=
  if 0 ≤ x ∧ x < c.width ∧ 0 ≤ y ∧ y < c.height then c.alpha x y else 0

/-- A freshly created (or cleared) canvas: everything transparent. -/
def blankCanvas (w h : ℤ) : Canvas :=
  { width := w, height := h, alpha := fun _ _ => 0 }

/-- Alpha result of the default `source-over` composite. -/
def sourceOverAlpha (s d : ℕ) : ℕ :=
  s + d * (255 - s) / 255

/-- Model of `ctx.drawImage(src, sx, sy, sw, sh, dx, dy, dw, dh)` with
the default `source-over` composite: a destination pixel inside both
the canvas and the destination rectangle receives the source pixel
sampled (point sampling, floor) from the source rectangle. -/
def drawImageScaled (dst src : Canvas) (sx sy sw sh dx dy dw dh : ℚ) : Canvas :=
  { dst with alpha := fun x y =>
      if 0 ≤ x ∧ x < dst.width ∧ 0 ≤ y ∧ y < dst.height ∧
         dx ≤ (x : ℚ) ∧ (x : ℚ) < dx + dw ∧ dy ≤ (y : ℚ) ∧ (y : ℚ) < dy + dh then
        (sourceOverAlpha
          (src.read ⌊sx + ((x : ℚ) - dx) * sw / dw⌋ ⌊sy + ((y : ℚ) - dy) * sh / dh⌋)
          (dst.alpha x y))
      else dst.alpha x y }

/-- Model of drawing `src` at (0,0) unscaled with
`globalCompositeOperation = 'destination-out'`: the destination alpha is
scaled by the complement of the source alpha. -/
def destOutDraw (dst src : Canvas) : Canvas :=
  { dst with alpha := fun x y =>
      if 0 ≤ x ∧ x < dst.width ∧ 0 ≤ y ∧ y < dst.height then
        dst.alpha x y * (255 - src.read x y) / 255
      else dst.alpha x y }

/-- Model of a full-canvas `fillRect` with an opaque fill style under
`globalCompositeOperation = 'source-in'`: the resulting alpha is the
source alpha (255) scaled by the destination alpha; the color channels
take the fill color, which the alpha model does not track. -/
def sourceInFill (dst : Canvas) (_color : String) : Canvas :=
  { dst with alpha := fun x y =>
      if 0 ≤ x ∧ x < dst.width ∧ 0 ≤ y ∧ y < dst.height then
        255 * dst.alpha x y / 255
      else dst.alpha x y }

/-- Model of drawing `src` at (0,0) unscaled with
`globalCompositeOperation = 'destination-in'`: the destination alpha is
scaled by the source alpha, keeping only where both are opaque. -/
def destInDraw (dst src : Canvas) : Canvas :=
  { dst with alpha := fun x y =>
      if 0 ≤ x ∧ x < dst.width ∧ 0 ≤ y ∧ y < dst.height then
        dst.alpha x y * src.read x y / 255
      else dst.alpha x y }

/-- The `ContourBorderOptions` interface: every field optional. -/
structure ContourBorderOptions where
  color : Option String := none
  borderScale : Option ℚ := none
  gapPx : Option ℚ := none
  strokePx : Option ℚ := none
  lineLengthRange : Option (ℚ × ℚ) := none
  dotSizeRange : Option (ℚ × ℚ) := none
  spacing : Option ℚ := none
  jitterAmount : Option ℚ := none

/-- `Required<ContourBorderOptions>`: the merged option record. -/
structure ResolvedOptions where
  color : String
  borderScale : ℚ
  gapPx : ℚ
  strokePx : ℚ
  lineLengthRange : ℚ × ℚ
  dotSizeRange : ℚ × ℚ
  spacing : ℚ
  jitterAmount : ℚ

/-- The `DEFAULT_OPTIONS` constant of the source module. -/
def DEFAULT_OPTIONS : ResolvedOptions :=
  { color := "#ffffff"
    borderScale := 53 / 50
    gapPx := 10
    strokePx := 5
    lineLengthRange := (20, 40)
    dotSizeRange := (3, 5)
    spacing := 12
    jitterAmount := 3 / 2 }

/-- The spread merge `{ ...DEFAULT_OPTIONS, ...options }` performed at
the top of each stage. -/
def mergeOptions (o : ContourBorderOptions) : ResolvedOptions :=
  { color := o.color.getD DEFAULT_OPTIONS.color
    borderScale := o.borderScale.getD DEFAULT_OPTIONS.borderScale
    gapPx := o.gapPx.getD DEFAULT_OPTIONS.gapPx
    strokePx := o.strokePx.getD DEFAULT_OPTIONS.strokePx
    lineLengthRange := o.lineLengthRange.getD DEFAULT_OPTIONS.lineLengthRange
    dotSizeRange := o.dotSizeRange.getD DEFAULT_OPTIONS.dotSizeRange
    spacing := o.spacing.getD DEFAULT_OPTIONS.spacing
    jitterAmount := o.jitterAmount.getD DEFAULT_OPTIONS.jitterAmount }

/-- The source helper `random(min, max)`; the `Math.random()` draw is
the explicit argument `r`. -/
def random (lo hi r : ℚ) : ℚ :=
  r * (hi - lo) + lo

/-- Width of the expanded working canvas: `imageWidth * 2`. -/
def canvasWidthOf (img : Canvas) : ℤ := 2 * img.width

/-- Height of the expanded working canvas: `imageHeight * 2`. -/
def canvasHeightOf (img : Canvas) : ℤ := 2 * img.height

/-- Horizontal position of the centered image:
`(canvasWidth - imageWidth) / 2`. -/
def imageXOf (img : Canvas) : ℚ :=
  ((canvasWidthOf img : ℚ) - (img.width : ℚ)) / 2

/-- Vertical position of the centered image. -/
def imageYOf (img : Canvas) : ℚ :=
  ((canvasHeightOf img : ℚ) - (img.height : ℚ)) / 2

/-- Width of the inner expanded layer: `imageWidth + 2 * gapPx`. -/
def innerWOf (img : Canvas) (gapPx : ℚ) : ℚ := (img.width : ℚ) + 2 * gapPx

/-- Height of the inner expanded layer. -/
def innerHOf (img : Canvas) (gapPx : ℚ) : ℚ := (img.height : ℚ) + 2 * gapPx

/-- Horizontal position of the inner layer: `imageX - gapPx`. -/
def innerXOf (img : Canvas) (gapPx : ℚ) : ℚ := imageXOf img - gapPx

/-- Vertical position of the inner layer: `imageY - gapPx`. -/
def innerYOf (img : Canvas) (gapPx : ℚ) : ℚ := imageYOf img - gapPx

/-- Width of the outer expanded layer: `innerWidth + 2 * strokePx`. -/
def outerWOf (img : Canvas) (gapPx strokePx : ℚ) : ℚ :=
  innerWOf img gapPx + 2 * strokePx

/-- Height of the outer expanded layer. -/
def outerHOf (img : Canvas) (gapPx strokePx : ℚ) : ℚ :=
  innerHOf img gapPx + 2 * strokePx

/-- Horizontal position of the outer layer: `innerX - strokePx`. -/
def outerXOf (img : Canvas) (gapPx strokePx : ℚ) : ℚ :=
  innerXOf img gapPx - strokePx

/-- Vertical position of the outer layer: `innerY - strokePx`. -/
def outerYOf (img : Canvas) (gapPx strokePx : ℚ) : ℚ :=
  innerYOf img gapPx - strokePx

/-- Step 1 of `createBorderMask`: the cleared working canvas with the
source image drawn centered at its natural size. -/
def maskCanvasOf (img : Canvas) : Canvas :=
  drawImageScaled (blankCanvas (canvasWidthOf img) (canvasHeightOf img)) img
    0 0 (img.width : ℚ) (img.height : ℚ)
    (imageXOf img) (imageYOf img) (img.width : ℚ) (img.height : ℚ)

/-- Step 2 of `createBorderMask`: the inner expanded layer, obtained by
rescaling the centered mask region to a box `gapPx` larger per side. -/
def innerCanvasOf (img : Canvas) (gapPx : ℚ) : Canvas :=
  drawImageScaled (blankCanvas (canvasWidthOf img) (canvasHeightOf img))
    (maskCanvasOf img)
    (imageXOf img) (imageYOf img) (img.width : ℚ) (img.height : ℚ)
    (innerXOf img gapPx) (innerYOf img gapPx)
    (innerWOf img gapPx) (innerHOf img gapPx)

/-- Step 3 of `createBorderMask`: the outer expanded layer, obtained by
rescaling the inner layer's region to a box `strokePx` larger per side. -/
def outerCanvasOf (img : Canvas) (gapPx strokePx : ℚ) : Canvas :=
  drawImageScaled (blankCanvas (canvasWidthOf img) (canvasHeightOf img))
    (innerCanvasOf img gapPx)
    (innerXOf img gapPx) (innerYOf img gapPx)
    (innerWOf img gapPx) (innerHOf img gapPx)
    (outerXOf img gapPx strokePx) (outerYOf img gapPx strokePx)
    (outerWOf img gapPx strokePx) (outerHOf img gapPx strokePx)

/-- The source function `createBorderMask`: merge the options, build the
mask / inner / outer layers, subtract the inner layer from the outer one
(`destination-out`), and fill the remaining ring with the border color
(`source-in`).  The ambient random supply is in scope but, as in the
source, never consulted. -/
def createBorderMask (img : Canvas) (options : ContourBorderOptions)
    (_rng : ℕ → ℚ) : Canvas :=
  sourceInFill
    (destOutDraw
      (outerCanvasOf img (mergeOptions options).gapPx (mergeOptions options).strokePx)
      (innerCanvasOf img (mergeOptions options).gapPx))
    (mergeOptions options).color

/-- Sampling stride of the stipple pass:
`Math.max(4, Math.floor(Math.min(w, h) / 200))`. -/
def sampleStride (w h : ℤ) : ℤ :=
  max 4 (min w h / 200)

/-- The candidate-point scan of `applyHandDrawnEffect`: every grid point
at multiples of the sampling stride where the ring's alpha is positive,
scanned row by row as in the source's nested loops. -/
def contourRegions (ring : Canvas) : List (ℤ × ℤ) :=
  let r := sampleStride ring.width ring.height
  ((List.range ring.height.toNat).filter (fun y => (y : ℤ) % r == 0)).flatMap
    (fun y =>
      ((List.range ring.width.toNat).filter (fun x => (x : ℤ) % r == 0)).filterMap
        (fun x =>
          if 0 < ring.read (x : ℤ) (y : ℤ) then some ((x : ℤ), (y : ℤ)) else none))

/-- The target primitive count of the stipple pass:
`Math.max(500, Math.floor(contourRegions.length * 0.3))`. -/
def stippleDensity (ring : Canvas) : ℕ :=
  max 500 (3 * (contourRegions ring).length / 10)

/-- The dot fraction constant `dotRatio = 0.4` of the stipple pass. -/
def dotRatio : ℚ := 2 / 5

/-- Model of the dot primitive (`ctx.arc` + `fill`): `ctx.arc` throws an
`IndexSizeError` when given a negative radius — reachable through a
negative `dotSizeRange` — and the surrounding try/catch turns that
exception into a promise rejection; for a nonnegative radius the filled
disk is rasterized crisply (a pixel in bounds whose point lies inside
the disk becomes opaque). -/
def paintDisk (st : Canvas) (cx cy r : ℚ) : Except String Canvas :=
  if r < 0 then .error "IndexSizeError"
  else .ok
    { st with alpha := fun x y =>
        if 0 ≤ x ∧ x < st.width ∧ 0 ≤ y ∧ y < st.height ∧
           ((x : ℚ) - cx) * ((x : ℚ) - cx) + ((y : ℚ) - cy) * ((y : ℚ) - cy) ≤ r * r then
          255
        else st.alpha x y }

/-- Point-in-capsule test for a stroked segment with round caps:
distance from the pixel to the segment is at most `halfW`. -/
def segCovers (ax ay bx byy px py halfW : ℚ) : Bool :=
  let dx := bx - ax
  let dy := byy - ay
  let len2 := dx * dx + dy * dy
  if len2 = 0 then
    decide ((px - ax) * (px - ax) + (py - ay) * (py - ay) ≤ halfW * halfW)
  else
    let t := max 0 (min 1 (((px - ax) * dx + (py - ay) * dy) / len2))
    let qx := ax + t * dx
    let qy := ay + t * dy
    decide ((px - qx) * (px - qx) + (py - qy) * (py - qy) ≤ halfW * halfW)

/-- Crisp rasterization of a stroked line segment (round cap and join)
on the stencil. -/
def paintSegment (st : Canvas) (ax ay bx byy halfW : ℚ) : Canvas :=
  { st with alpha := fun x y =>
      if 0 ≤ x ∧ x < st.width ∧ 0 ≤ y ∧ y < st.height ∧
         segCovers ax ay bx byy (x : ℚ) (y : ℚ) halfW = true then
        255
      else st.alpha x y }

/-- One iteration of the stipple loop: pick a random anchor among the
candidate points, offset it by up to the sampling stride, discard it if
it leaves the canvas, add the jitter, then draw either a dot or a short
dash.  The state is the stencil, the random-supply cursor, and the
stencil context's current `lineWidth` (the canvas ignores assignments
of a non-positive `lineWidth`, so the previous value persists; its
initial value is 1).  Drawing a dot fails when its radius is negative
(`ctx.arc` throws).  The dash branch consumes two supply values
standing for the cosine and sine of the uniformly random angle (see the
module comment). -/
def stippleStep (w h sr : ℤ) (opts : ResolvedOptions)
    (contour : List (ℤ × ℤ)) (rng : ℕ → ℚ) (acc : Canvas × ℕ × ℚ) :
    Except String (Canvas × ℕ × ℚ) :=
  let st := acc.1
  let k := acc.2.1
  let lw0 := acc.2.2
  let b := contour.getD (⌊rng k * (contour.length : ℚ)⌋).toNat (0, 0)
  let offsetX := (rng (k + 1) - 1 / 2) * (sr : ℚ) * 2
  let offsetY := (rng (k + 2) - 1 / 2) * (sr : ℚ) * 2
  let x := (b.1 : ℚ) + offsetX
  let y := (b.2 : ℚ) + offsetY
  if x < 0 ∨ (w : ℚ) ≤ x ∨ y < 0 ∨ (h : ℚ) ≤ y then .ok (st, k + 3, lw0)
  else
    let jx := (rng (k + 3) - 1 / 2) * opts.jitterAmount * 2
    let jy := (rng (k + 4) - 1 / 2) * opts.jitterAmount * 2
    if rng (k + 5) < dotRatio then
      let r := random opts.dotSizeRange.1 opts.dotSizeRange.2 (rng (k + 6)) / 2
      (paintDisk st (x + jx) (y + jy) r).map (fun st2 => (st2, k + 7, lw0))
    else
      let len := random opts.lineLengthRange.1 opts.lineLengthRange.2 (rng (k + 6))
      let c := rng (k + 7)
      let s := rng (k + 8)
      let dx := c * len * (1 / 2)
      let dy := s * len * (1 / 2)
      let lwSet := random (opts.strokePx * (3 / 5)) (opts.strokePx * (6 / 5)) (rng (k + 9))
      let lw := if 0 < lwSet then lwSet else lw0
      .ok (paintSegment st (x - dx + jx) (y - dy + jy) (x + dx + jx) (y + dy + jy)
        (lw / 2), k + 10, lw)

/-- The stencil canvas after the whole stipple loop, or the first
exception thrown while drawing. -/
def stippleStencil (w h sr : ℤ) (opts : ResolvedOptions)
    (contour : List (ℤ × ℤ)) (rng : ℕ → ℚ) (density : ℕ) : Except String Canvas :=
  ((List.range density).foldl
    (fun (acc : Except String (Canvas × ℕ × ℚ)) _ =>
      acc.bind (stippleStep w h sr opts contour rng))
    (.ok (blankCanvas w h, 0, 1))).map (fun st => st.1)

/-- The source function `applyHandDrawnEffect`: sample the ring for
candidate points; if none are found return the ring unchanged (the
degenerate case is only logged); otherwise paint the random dots and
dashes onto a stencil — which can throw, see `paintDisk` — and
intersect the ring with it (`destination-in`). -/
def applyHandDrawnEffect (borderCanvas : Canvas)
    (options : ContourBorderOptions) (rng : ℕ → ℚ) : Except String Canvas :=
  let opts := mergeOptions options
  let contour := contourRegions borderCanvas
  if contour.isEmpty then .ok borderCanvas
  else
    (stippleStencil borderCanvas.width borderCanvas.height
        (sampleStride borderCanvas.width borderCanvas.height) opts contour rng
        (stippleDensity borderCanvas)).map
      (fun stencil => destInDraw borderCanvas stencil)

/-- The source entry point `applyContourBorder`: build the border mask,
stipple it, and composite the centered source image with the stippled
border on a fresh canvas of the expanded size.  The pipeline runs inside
try/catch blocks whose catch rejects the promise, so an exception thrown
during stippling (the one reachable in this model is the
`IndexSizeError` of a negative dot radius) surfaces as an error;
image-load and context-acquisition failures cannot occur for an already
decoded in-memory image. -/
def applyContourBorder (img : Canvas) (options : ContourBorderOptions)
    (rng : ℕ → ℚ) : Except String Canvas :=
  (applyHandDrawnEffect (createBorderMask img options rng) options rng).map
    (fun border2 =>
      drawImageScaled
        (drawImageScaled (blankCanvas (canvasWidthOf img) (canvasHeightOf img)) img
          0 0 (img.width : ℚ) (img.height : ℚ)
          (imageXOf img) (imageYOf img) (img.width : ℚ) (img.height : ℚ))
        border2
        0 0 ((canvasWidthOf img : ℤ) : ℚ) ((canvasHeightOf img : ℤ) : ℚ)
        0 0 ((canvasWidthOf img : ℤ) : ℚ) ((canvasHeightOf img : ℤ) : ℚ))

/-- A fully opaque rectangular test image. -/
def opaqueImg (w h : ℤ) : Canvas := ⟨w, h, fun _ _ => 255⟩

/-- A test image whose only opaque pixel is at `(px, py)`. -/
def onePixelImg (w h px py : ℤ) : Canvas :=
  ⟨w, h, fun x y => if x = px ∧ y = py then 255 else 0⟩

/-- A uniformly half-transparent (alpha 128) test image. -/
def halfImg (w h : ℤ) : Canvas := ⟨w, h, fun _ _ => 128⟩

/-- A concrete random supply (all draws 0). -/
def rng0 : ℕ → ℚ := fun _ => 0

/-- The empty configuration object `{}`. -/
def emptyConfig : ContourBorderOptions := {}

/-- A configuration with no gap and a 1px stroke, used as a concrete
test input. -/
def cfg01 : ContourBorderOptions := { gapPx := some 0, strokePx := some 1 }

/-- A configuration with a 1px gap and a 1px stroke, used as a concrete
test input. -/
def cfg11 : ContourBorderOptions := { gapPx := some 1, strokePx := some 1 }

/-- The documented defaults of the public contract, spelled out
explicitly: `color=#ffffff, gapPx=10, strokePx=5, lineLengthRange=[20,40],
dotSizeRange=[3,5], spacing=12, jitterAmount=1.5`. -/
def explicitDefaultsConfig : ContourBorderOptions :=
  { color := some "#ffffff"
    gapPx := some 10
    strokePx := some 5
    lineLengthRange := some (20, 40)
    dotSizeRange := some (3, 5)
    spacing := some 12
    jitterAmount := some (3 / 2) }

/-- A concrete random supply that selects the dot branch on the first
stipple iteration while keeping the anchor on-canvas. -/
def rngD : ℕ → ℚ := fun n => if n % 7 = 5 then 0 else 1 / 2

/-- A configuration whose reversed `dotSizeRange` produces negative dot
radii, making `ctx.arc` throw. -/
def cfgNeg : ContourBorderOptions := { dotSizeRange := some (-3, -5) }

/-- Orthogonal star-shapedness of a canvas's opaque region about a
center pixel: whenever a pixel is opaque, so is every pixel of the
axis-aligned box spanned by that pixel and the center.  The scale-about-
center expansion of the source is exact for such shapes. -/
def orthoStarOn (c : Canvas) (cx cy : ℤ) : Prop :=
  ∀ x ∈ Finset.Icc 0 (c.width - 1), ∀ y ∈ Finset.Icc 0 (c.height - 1),
    ∀ u ∈ Finset.Icc (min x cx) (max x cx), ∀ v ∈ Finset.Icc (min y cy) (max y cy),
      0 < c.alpha x y → 0 < c.alpha u v

lemma applyHandDrawnEffect_eq_of_contour_nil (ring : Canvas)
    (c : ContourBorderOptions) (rng : ℕ → ℚ)
    (h : contourRegions ring = []) :
    applyHandDrawnEffect ring c rng = .ok ring := by
  simp [applyHandDrawnEffect, h]

lemma applyHandDrawnEffect_alpha_pos (ring : Canvas)
    (c : ContourBorderOptions) (rng : ℕ → ℚ) (out : Canvas) (x y : ℤ)
    (hout : applyHandDrawnEffect ring c rng = .ok out)
    (h : 0 < out.alpha x y) :
    0 < ring.alpha x y := by
  by_cases hc : (contourRegions ring).isEmpty
  · simp only [applyHandDrawnEffect, hc, if_true, Except.ok.injEq] at hout
    rw [← hout] at h
    exact h
  · simp only [applyHandDrawnEffect, hc, if_false, Bool.false_eq_true] at hout
    rcases hres : stippleStencil ring.width ring.height
        (sampleStride ring.width ring.height) (mergeOptions c)
        (contourRegions ring) rng (stippleDensity ring) with e | stc
    · rw [hres] at hout
      simp [Except.map] at hout
    · rw [hres] at hout
      simp only [Except.map, Except.ok.injEq] at hout
      rw [← hout] at h
      simp only [destInDraw] at h
      rcases Nat.eq_zero_or_pos (ring.alpha x y) with h0 | h0
      · rw [h0] at h
        simp at h
      · exact h0

/-- C5: the pre-stipple geometry is deterministic: `createBorderMask`
never consults the ambient random source, so two invocations with the
same image and configuration but arbitrary random draws produce
identical ring canvases pixel for pixel. -/
theorem createBorderMask_deterministic (img : Canvas)
    (options : ContourBorderOptions) (rng₁ rng₂ : ℕ → ℚ) :
    createBorderMask img options rng₁ = createBorderMask img options rng₂ := rfl

/-- C9: if the coarse-grid sampling of the ring finds no candidate
points, `applyHandDrawnEffect` returns successfully with the ring canvas
unchanged (the `destination-in` intersection is never applied and no
exception is thrown). -/
theorem applyHandDrawnEffect_degenerate (ring : Canvas)
    (options : ContourBorderOptions) (rng : ℕ → ℚ)
    (h : contourRegions ring = []) :
    applyHandDrawnEffect ring options rng = .ok ring :=
  applyHandDrawnEffect_eq_of_contour_nil ring options rng h

/-- Witness for C9: a fully transparent 2×2 ring has no candidate
points, and the stipple pass returns it unchanged without error. -/
theorem applyHandDrawnEffect_degenerate_witness :
    applyHandDrawnEffect (blankCanvas 2 2) emptyConfig rng0 = .ok (blankCanvas 2 2) :=
  applyHandDrawnEffect_degenerate (blankCanvas 2 2) emptyConfig rng0 (by decide)

/-- C2: every pixel whose alpha is positive in the canvas the stipple
pass returns is a pixel where the pre-stipple solid ring produced by
`createBorderMask` already had positive alpha: the `destination-in`
intersection with the original solid ring clips every stipple mark to
the ring band. -/
theorem stipple_stays_in_ring (img : Canvas) (options : ContourBorderOptions)
    (rngG rngS : ℕ → ℚ) (out : Canvas) (x y : ℤ)
    (hout : applyHandDrawnEffect (createBorderMask img options rngG)
        options rngS = .ok out)
    (h : 0 < out.alpha x y) :
    0 < (createBorderMask img options rngG).alpha x y :=
  applyHandDrawnEffect_alpha_pos (createBorderMask img options rngG) options rngS
    out x y hout h

lemma ring01_read00 :
    (createBorderMask (opaqueImg 4 4) cfg01 rng0).read 0 0 = 0 := by
  norm_num [cfg01, createBorderMask, mergeOptions, DEFAULT_OPTIONS, sourceInFill,
    destOutDraw, outerCanvasOf, innerCanvasOf, maskCanvasOf, drawImageScaled, blankCanvas,
    Canvas.read, canvasWidthOf, canvasHeightOf, imageXOf, imageYOf, innerXOf, innerYOf,
    innerWOf, innerHOf, outerXOf, outerYOf, outerWOf, outerHOf, opaqueImg, sourceOverAlpha]

lemma ring01_read40 :
    (createBorderMask (opaqueImg 4 4) cfg01 rng0).read 4 0 = 0 := by
  norm_num [cfg01, createBorderMask, mergeOptions, DEFAULT_OPTIONS, sourceInFill,
    destOutDraw, outerCanvasOf, innerCanvasOf, maskCanvasOf, drawImageScaled, blankCanvas,
    Canvas.read, canvasWidthOf, canvasHeightOf, imageXOf, imageYOf, innerXOf, innerYOf,
    innerWOf, innerHOf, outerXOf, outerYOf, outerWOf, outerHOf, opaqueImg, sourceOverAlpha]

lemma ring01_read04 :
    (createBorderMask (opaqueImg 4 4) cfg01 rng0).read 0 4 = 0 := by
  norm_num [cfg01, createBorderMask, mergeOptions, DEFAULT_OPTIONS, sourceInFill,
    destOutDraw, outerCanvasOf, innerCanvasOf, maskCanvasOf, drawImageScaled, blankCanvas,
    Canvas.read, canvasWidthOf, canvasHeightOf, imageXOf, imageYOf, innerXOf, innerYOf,
    innerWOf, innerHOf, outerXOf, outerYOf, outerWOf, outerHOf, opaqueImg, sourceOverAlpha]

lemma ring01_read44 :
    (createBorderMask (opaqueImg 4 4) cfg01 rng0).read 4 4 = 0 := by
  norm_num [cfg01, createBorderMask, mergeOptions, DEFAULT_OPTIONS, sourceInFill,
    destOutDraw, outerCanvasOf, innerCanvasOf, maskCanvasOf, drawImageScaled, blankCanvas,
    Canvas.read, canvasWidthOf, canvasHeightOf, imageXOf, imageYOf, innerXOf, innerYOf,
    innerWOf, innerHOf, outerXOf, outerYOf, outerWOf, outerHOf, opaqueImg, sourceOverAlpha]

lemma ring01_contour_nil :
    contourRegions (createBorderMask (opaqueImg 4 4) cfg01 rng0) = [] := by
  have hw : (createBorderMask (opaqueImg 4 4) cfg01 rng0).width = 8 := rfl
  have hh : (createBorderMask (opaqueImg 4 4) cfg01 rng0).height = 8 := rfl
  simp [contourRegions, hw, hh, sampleStride, List.range_succ,
    ring01_read00, ring01_read40, ring01_read04, ring01_read44]

lemma ring01_alpha11 :
    (createBorderMask (opaqueImg 4 4) cfg01 rng0).alpha 1 1 = 255 := by
  norm_num [cfg01, createBorderMask, mergeOptions, DEFAULT_OPTIONS, sourceInFill,
    destOutDraw, outerCanvasOf, innerCanvasOf, maskCanvasOf, drawImageScaled, blankCanvas,
    Canvas.read, canvasWidthOf, canvasHeightOf, imageXOf, imageYOf, innerXOf, innerYOf,
    innerWOf, innerHOf, outerXOf, outerYOf, outerWOf, outerHOf, opaqueImg, sourceOverAlpha]

/-- Witness for C2: a concrete ring (opaque 4×4 subject, no gap, 1px
stroke) whose stippled output keeps pixel (1,1) opaque, and that pixel
is indeed opaque in the pre-stipple ring. -/
theorem stipple_stays_in_ring_witness :
    0 < (createBorderMask (opaqueImg 4 4) cfg01 rng0).alpha 1 1 :=
  stipple_stays_in_ring (opaqueImg 4 4) cfg01 rng0 rng0
    (createBorderMask (opaqueImg 4 4) cfg01 rng0) 1 1
    (applyHandDrawnEffect_eq_of_contour_nil _ _ _ ring01_contour_nil)
    (by rw [ring01_alpha11]; norm_num)

/-- Counterexample for C6: contrary to the claim, no source image and no
pair of configurations differing only in `spacing` can yield different
target primitive counts — the target count computed by the stipple pass
is invariant under every change of `spacing`, because `spacing` is never
read after the option merge. -/
theorem spacing_does_not_change_density :
    ¬ ∃ (img : Canvas) (c : ContourBorderOptions) (o : Option ℚ) (rng : ℕ → ℚ),
      stippleDensity (createBorderMask img { c with spacing := o } rng) ≠
      stippleDensity (createBorderMask img c rng) := by
  rintro ⟨img, c, o, rng, hne⟩
  exact hne (by cases c; rfl)

/-- C6 amended: the `spacing` field has no effect at all on the stipple
pass; the target primitive count is `max(500, ⌊0.3 · candidates⌋)`,
independent of `spacing`. -/
theorem spacing_has_no_effect (ring : Canvas) (c : ContourBorderOptions)
    (o : Option ℚ) (rng : ℕ → ℚ) :
    applyHandDrawnEffect ring { c with spacing := o } rng =
    applyHandDrawnEffect ring c rng := by
  cases c
  rfl

/-- C10: the deprecated `borderScale` field has no effect: for configs
that agree on every other field, `createBorderMask` produces identical
ring canvases and `applyHandDrawnEffect` (under the same random draws)
produces identical stippled canvases, because `borderScale` is never
read after the option merge. -/
theorem borderScale_has_no_effect (img ring : Canvas)
    (c₁ c₂ : ContourBorderOptions) (rng : ℕ → ℚ)
    (hcol : c₁.color = c₂.color) (hgap : c₁.gapPx = c₂.gapPx)
    (hstroke : c₁.strokePx = c₂.strokePx)
    (hll : c₁.lineLengthRange = c₂.lineLengthRange)
    (hds : c₁.dotSizeRange = c₂.dotSizeRange)
    (hsp : c₁.spacing = c₂.spacing)
    (hj : c₁.jitterAmount = c₂.jitterAmount) :
    createBorderMask img c₁ rng = createBorderMask img c₂ rng ∧
    applyHandDrawnEffect ring c₁ rng = applyHandDrawnEffect ring c₂ rng := by
  cases c₁
  cases c₂
  simp only at hcol hgap hstroke hll hds hsp hj
  subst hcol hgap hstroke hll hds hsp hj
  exact ⟨rfl, rfl⟩

/-- Witness for C10: two concrete configurations differing only in
`borderScale` (1.06 vs 2) give identical outputs on a concrete image
and ring. -/
theorem borderScale_has_no_effect_witness :
    createBorderMask (opaqueImg 4 4) { borderScale := some (53 / 50) } rng0 =
      createBorderMask (opaqueImg 4 4) { borderScale := some 2 } rng0 ∧
    applyHandDrawnEffect (blankCanvas 8 8) { borderScale := some (53 / 50) } rng0 =
      applyHandDrawnEffect (blankCanvas 8 8) { borderScale := some 2 } rng0 :=
  borderScale_has_no_effect (opaqueImg 4 4) (blankCanvas 8 8)
    { borderScale := some (53 / 50) } { borderScale := some 2 } rng0
    rfl rfl rfl rfl rfl rfl rfl

lemma random_nonneg (lo hi r : ℚ) (hlo : 0 ≤ lo) (hhi : 0 ≤ hi)
    (hr0 : 0 ≤ r) (hr1 : r < 1) : 0 ≤ random lo hi r := by
  simp only [random]
  nlinarith [mul_nonneg hr0 hhi, mul_nonneg (sub_nonneg.mpr hr1.le) hlo]

lemma stippleStep_isOk (w h sr : ℤ) (opts : ResolvedOptions)
    (contour : List (ℤ × ℤ)) (rng : ℕ → ℚ) (acc : Canvas × ℕ × ℚ)
    (hr : ∀ n, 0 ≤ rng n ∧ rng n < 1)
    (h1 : 0 ≤ opts.dotSizeRange.1) (h2 : 0 ≤ opts.dotSizeRange.2) :
    (stippleStep w h sr opts contour rng acc).isOk = true := by
  obtain ⟨st, k, lw0⟩ := acc
  simp only [stippleStep]
  split
  · rfl
  · split
    · have hrad : ¬ (random opts.dotSizeRange.1 opts.dotSizeRange.2 (rng (k + 6)) / 2 < 0) :=
        not_lt.mpr (div_nonneg
          (random_nonneg _ _ _ h1 h2 (hr (k + 6)).1 (hr (k + 6)).2) (by norm_num))
      rw [paintDisk, if_neg hrad]
      rfl
    · rfl

lemma foldl_bind_isOk {α : Type} (f : α → Except String α)
    (hf : ∀ a, (f a).isOk = true) :
    ∀ (l : List ℕ) (init : Except String α), init.isOk = true →
      (l.foldl (fun acc _ => acc.bind f) init).isOk = true := by
  intro l
  induction l with
  | nil => intro init h; simpa using h
  | cons head tail ih =>
      intro init h
      rw [List.foldl_cons]
      apply ih
      cases init with
      | error e => exact absurd h (by simp [Except.isOk, Except.toBool])
      | ok a => exact hf a

lemma except_map_isOk {ε α β : Type} (r : Except ε α) (f : α → β)
    (h : r.isOk = true) : (r.map f).isOk = true := by
  cases r with
  | error e => exact absurd h (by simp [Except.isOk, Except.toBool])
  | ok a => rfl

lemma except_isOk_exists {ε α : Type} (r : Except ε α)
    (h : r.isOk = true) : ∃ a, r = .ok a := by
  cases r with
  | error e => exact absurd h (by simp [Except.isOk, Except.toBool])
  | ok a => exact ⟨a, rfl⟩

lemma stippleStencil_isOk (w h sr : ℤ) (opts : ResolvedOptions)
    (contour : List (ℤ × ℤ)) (rng : ℕ → ℚ) (density : ℕ)
    (hr : ∀ n, 0 ≤ rng n ∧ rng n < 1)
    (h1 : 0 ≤ opts.dotSizeRange.1) (h2 : 0 ≤ opts.dotSizeRange.2) :
    (stippleStencil w h sr opts contour rng density).isOk = true := by
  rw [stippleStencil]
  exact except_map_isOk _ _
    (foldl_bind_isOk (stippleStep w h sr opts contour rng)
      (fun a => stippleStep_isOk w h sr opts contour rng a hr h1 h2)
      (List.range density) (.ok (blankCanvas w h, 0, 1)) rfl)

lemma applyHandDrawnEffect_isOk (ring : Canvas) (c : ContourBorderOptions)
    (rng : ℕ → ℚ) (hr : ∀ n, 0 ≤ rng n ∧ rng n < 1)
    (h1 : 0 ≤ (mergeOptions c).dotSizeRange.1)
    (h2 : 0 ≤ (mergeOptions c).dotSizeRange.2) :
    (applyHandDrawnEffect ring c rng).isOk = true := by
  by_cases hc : (contourRegions ring).isEmpty
  · simp [applyHandDrawnEffect, hc, Except.isOk, Except.toBool]
  · simp only [applyHandDrawnEffect, hc, if_false, Bool.false_eq_true]
    exact except_map_isOk _ _ (stippleStencil_isOk _ _ _ _ _ _ _ hr h1 h2)

lemma applyContourBorder_isOk (img : Canvas) (c : ContourBorderOptions)
    (rng : ℕ → ℚ) (hr : ∀ n, 0 ≤ rng n ∧ rng n < 1)
    (h1 : 0 ≤ (mergeOptions c).dotSizeRange.1)
    (h2 : 0 ≤ (mergeOptions c).dotSizeRange.2) :
    (applyContourBorder img c rng).isOk = true := by
  rw [applyContourBorder]
  exact except_map_isOk _ _ (applyHandDrawnEffect_isOk _ _ _ hr h1 h2)

lemma applyContourBorder_ok_dims (img : Canvas) (c : ContourBorderOptions)
    (rng : ℕ → ℚ) (out : Canvas)
    (h : applyContourBorder img c rng = .ok out) :
    out.width = canvasWidthOf img ∧ out.height = canvasHeightOf img := by
  rw [applyContourBorder] at h
  rcases hres : applyHandDrawnEffect (createBorderMask img c rng) c rng with e | b
  · rw [hres] at h
    simp [Except.map] at h
  · rw [hres] at h
    simp only [Except.map, Except.ok.injEq] at h
    rw [← h]
    exact ⟨rfl, rfl⟩

/-- Counterexample for C7: a configuration whose `dotSizeRange` has
min 5 > max 3 does not make the border-generation call fail — with
`Math.random` draws in [0,1) the sampled dot radii stay in the positive
reversed interval, no exception is thrown, and the call returns an image
(the promise resolves), contradicting the claim that an invalid range is
rejected as a configuration error. -/
theorem invalid_range_not_rejected :
    (3 : ℚ) < 5 ∧
    (applyContourBorder (opaqueImg 4 4) { dotSizeRange := some (5, 3) } rng0).isOk = true :=
  ⟨by norm_num,
    applyContourBorder_isOk (opaqueImg 4 4) { dotSizeRange := some (5, 3) } rng0
      (fun _ => ⟨le_refl 0, by norm_num [rng0]⟩)
      (by norm_num [mergeOptions, DEFAULT_OPTIONS])
      (by norm_num [mergeOptions, DEFAULT_OPTIONS])⟩

/-- C7 amended: reversed ranges (min > max in `lineLengthRange` or
`dotSizeRange`) are never rejected as a configuration error — no
validation exists.  Whenever the merged `dotSizeRange` endpoints are
nonnegative (so the reversed-interval dot radii stay nonnegative) and
the random draws lie in [0,1), the pipeline runs to completion and
returns an image, `random(min, max)` simply sampling the reversed
interval.  (A reversed `dotSizeRange` with negative values instead makes
`ctx.arc` throw an `IndexSizeError` — a canvas exception surfaced by the
try/catch, still not a configuration error.) -/
theorem invalid_range_returns_image (img : Canvas)
    (c : ContourBorderOptions) (rng : ℕ → ℚ)
    (hr : ∀ n, 0 ≤ rng n ∧ rng n < 1)
    (hlo : 0 ≤ (mergeOptions c).dotSizeRange.1)
    (hhi : 0 ≤ (mergeOptions c).dotSizeRange.2)
    (hrev : (∃ lo hi, c.lineLengthRange = some (lo, hi) ∧ hi < lo) ∨
            (∃ lo hi, c.dotSizeRange = some (lo, hi) ∧ hi < lo)) :
    (applyContourBorder img c rng).isOk = true :=
  applyContourBorder_isOk img c rng hr hlo hhi

/-- Witness for C7's amended statement: a concrete reversed
`lineLengthRange` (with the default, nonnegative `dotSizeRange`) still
yields an image. -/
theorem invalid_range_returns_image_witness :
    (applyContourBorder (opaqueImg 4 4) { lineLengthRange := some (40, 20) } rng0).isOk = true :=
  invalid_range_returns_image (opaqueImg 4 4) { lineLengthRange := some (40, 20) } rng0
    (fun _ => ⟨le_refl 0, by norm_num [rng0]⟩)
    (by norm_num [mergeOptions, DEFAULT_OPTIONS])
    (by norm_num [mergeOptions, DEFAULT_OPTIONS])
    (Or.inl ⟨40, 20, rfl, by norm_num⟩)

lemma contour_opaque22 : contourRegions (opaqueImg 2 2) = [((0 : ℤ), (0 : ℤ))] := by decide

lemma density_opaque22 : stippleDensity (opaqueImg 2 2) = 500 := by
  rw [stippleDensity, contour_opaque22]
  norm_num

lemma negStep : stippleStep 2 2 4 (mergeOptions cfgNeg)
    [((0 : ℤ), (0 : ℤ))] rngD (blankCanvas 2 2, 0, 1) = .error "IndexSizeError" := by
  norm_num [cfgNeg, stippleStep, rngD, random, paintDisk, dotRatio, mergeOptions,
    DEFAULT_OPTIONS, Except.map]

lemma foldl_bind_error {α : Type} (f : α → Except String α) (l : List ℕ) (e : String) :
    l.foldl (fun (acc : Except String α) _ => acc.bind f) (.error e) = .error e := by
  induction l with
  | nil => rfl
  | cons head tail ih => rw [List.foldl_cons]; exact ih

lemma negStencilLit : stippleStencil 2 2 4 (mergeOptions cfgNeg)
    [((0 : ℤ), (0 : ℤ))] rngD 500 = .error "IndexSizeError" := by
  rw [stippleStencil, List.range_succ_eq_map, List.foldl_cons]
  rw [show ((Except.ok (blankCanvas 2 2, 0, (1 : ℚ))).bind
      (stippleStep 2 2 4 (mergeOptions cfgNeg) [((0 : ℤ), (0 : ℤ))] rngD)) =
      Except.error "IndexSizeError" from negStep]
  rw [foldl_bind_error]
  rfl

lemma negStencil : stippleStencil (opaqueImg 2 2).width (opaqueImg 2 2).height
    (sampleStride (opaqueImg 2 2).width (opaqueImg 2 2).height) (mergeOptions cfgNeg)
    (contourRegions (opaqueImg 2 2)) rngD (stippleDensity (opaqueImg 2 2)) =
    .error "IndexSizeError" := by
  rw [show (opaqueImg 2 2).width = 2 from rfl, show (opaqueImg 2 2).height = 2 from rfl,
    show sampleStride 2 2 = 4 from by decide, contour_opaque22, density_opaque22]
  exact negStencilLit

/-- Demonstration that the stipple pass's failure mode is real and
reachable: with a reversed negative `dotSizeRange` the first dot drawn
has a negative radius, `ctx.arc` throws, and `applyHandDrawnEffect`
surfaces the `IndexSizeError` instead of a canvas — which is why C7's
amended statement restricts itself to nonnegative `dotSizeRange`
endpoints. -/
lemma negative_dot_radius_throws :
    applyHandDrawnEffect (opaqueImg 2 2) cfgNeg rngD = .error "IndexSizeError" := by
  have hne : (contourRegions (opaqueImg 2 2)).isEmpty = false := by
    rw [contour_opaque22]
    rfl
  simp only [applyHandDrawnEffect, hne, Bool.false_eq_true, if_false]
  rw [negStencil]
  rfl

/-- C8: calling with the empty configuration `{}` is indistinguishable
from calling with the explicitly spelled-out documented defaults — the
whole pipeline (border mask and final composition, hence output
dimensions and ring geometry) agrees on every image and random supply —
and on a concrete 60×60 opaque subject the resulting ring is non-empty. -/
theorem empty_config_equals_defaults :
    (∀ (img : Canvas) (rng : ℕ → ℚ),
      applyContourBorder img emptyConfig rng =
        applyContourBorder img explicitDefaultsConfig rng ∧
      createBorderMask img emptyConfig rng =
        createBorderMask img explicitDefaultsConfig rng) ∧
    0 < (createBorderMask (opaqueImg 60 60) emptyConfig rng0).alpha 15 15 := by
  refine ⟨fun img rng => ⟨rfl, rfl⟩, ?_⟩
  norm_num [emptyConfig, createBorderMask, mergeOptions, DEFAULT_OPTIONS, sourceInFill,
    destOutDraw, outerCanvasOf, innerCanvasOf, maskCanvasOf, drawImageScaled, blankCanvas,
    Canvas.read, canvasWidthOf, canvasHeightOf, imageXOf, imageYOf, innerXOf, innerYOf,
    innerWOf, innerHOf, outerXOf, outerYOf, outerWOf, outerHOf, opaqueImg, sourceOverAlpha]

/-- Counterexample for C4: on a 20×20 image with the default
configuration (gap 10 + stroke 5), the call succeeds but the fixed 2×
working canvas is only 40×40 — smaller than the `W + 2·(gap+stroke) =
50` the claim promises — and the outer layer's rectangle starts at a
negative coordinate, so border content is clipped. -/
theorem small_canvas_clips :
    outerXOf (opaqueImg 20 20) (mergeOptions emptyConfig).gapPx
        (mergeOptions emptyConfig).strokePx < 0 ∧
    ∃ out, applyContourBorder (opaqueImg 20 20) emptyConfig rng0 = .ok out ∧
      out.width = 40 ∧ out.height = 40 ∧
      ¬ (((opaqueImg 20 20).width : ℚ) +
          2 * ((mergeOptions emptyConfig).gapPx + (mergeOptions emptyConfig).strokePx) ≤
          (out.width : ℚ)) := by
  refine ⟨?_, ?_⟩
  · norm_num [outerXOf, innerXOf, imageXOf, canvasWidthOf, mergeOptions, emptyConfig,
      DEFAULT_OPTIONS, opaqueImg]
  · obtain ⟨out, hout⟩ := except_isOk_exists _
      (applyContourBorder_isOk (opaqueImg 20 20) emptyConfig rng0
        (fun _ => ⟨le_refl 0, by norm_num [rng0]⟩)
        (by norm_num [mergeOptions, emptyConfig, DEFAULT_OPTIONS])
        (by norm_num [mergeOptions, emptyConfig, DEFAULT_OPTIONS]))
    obtain ⟨hwid, hht⟩ := applyContourBorder_ok_dims _ _ _ _ hout
    refine ⟨out, hout, by rw [hwid]; rfl, by rw [hht]; rfl, ?_⟩
    rw [hwid]
    norm_num [canvasWidthOf, mergeOptions, emptyConfig, DEFAULT_OPTIONS, opaqueImg]

/-- C4 amended: provided the source image is at least `2·(gap+stroke)`
pixels wide and tall, the 2× working canvas holds the outer layer's
bounding box without clipping, and any raster the call returns has the
expanded canvas's dimensions `2W × 2H`, which are then at least
`W + 2·(gap+stroke)` by `H + 2·(gap+stroke)`.  (For smaller images the
fixed 2× factor clips, see the counterexample; and a call that throws
while stippling returns no raster at all, see the C7 analysis.) -/
theorem expanded_canvas_fits (img : Canvas) (c : ContourBorderOptions) (rng : ℕ → ℚ)
    (hw : 2 * ((mergeOptions c).gapPx + (mergeOptions c).strokePx) ≤ (img.width : ℚ))
    (hh : 2 * ((mergeOptions c).gapPx + (mergeOptions c).strokePx) ≤ (img.height : ℚ)) :
    0 ≤ outerXOf img (mergeOptions c).gapPx (mergeOptions c).strokePx ∧
    outerXOf img (mergeOptions c).gapPx (mergeOptions c).strokePx +
      outerWOf img (mergeOptions c).gapPx (mergeOptions c).strokePx ≤
      ((canvasWidthOf img : ℤ) : ℚ) ∧
    0 ≤ outerYOf img (mergeOptions c).gapPx (mergeOptions c).strokePx ∧
    outerYOf img (mergeOptions c).gapPx (mergeOptions c).strokePx +
      outerHOf img (mergeOptions c).gapPx (mergeOptions c).strokePx ≤
      ((canvasHeightOf img : ℤ) : ℚ) ∧
    ∀ out, applyContourBorder img c rng = .ok out →
      (img.width : ℚ) + 2 * ((mergeOptions c).gapPx + (mergeOptions c).strokePx) ≤
        ((out.width : ℤ) : ℚ) ∧
      (img.height : ℚ) + 2 * ((mergeOptions c).gapPx + (mergeOptions c).strokePx) ≤
        ((out.height : ℤ) : ℚ) := by
  refine ⟨?_, ?_, ?_, ?_, ?_⟩
  · simp only [outerXOf, innerXOf, imageXOf, canvasWidthOf]
    push_cast
    linarith
  · simp only [outerXOf, innerXOf, imageXOf, outerWOf, innerWOf, canvasWidthOf]
    push_cast
    linarith
  · simp only [outerYOf, innerYOf, imageYOf, canvasHeightOf]
    push_cast
    linarith
  · simp only [outerYOf, innerYOf, imageYOf, outerHOf, innerHOf, canvasHeightOf]
    push_cast
    linarith
  · intro out hout
    obtain ⟨hwid, hht⟩ := applyContourBorder_ok_dims _ _ _ _ hout
    rw [hwid, hht]
    simp only [canvasWidthOf, canvasHeightOf]
    push_cast
    constructor <;> linarith

/-- Witness for C4's amended statement: a 100×100 image with the default
configuration satisfies the size hypothesis, the outer box fits, the
call concretely succeeds, and the output is 200×200 ≥ 130×130. -/
theorem expanded_canvas_fits_witness :
    (∃ out, applyContourBorder (opaqueImg 100 100) emptyConfig rng0 = .ok out) ∧
    (0 ≤ outerXOf (opaqueImg 100 100) (mergeOptions emptyConfig).gapPx
        (mergeOptions emptyConfig).strokePx ∧
    outerXOf (opaqueImg 100 100) (mergeOptions emptyConfig).gapPx
        (mergeOptions emptyConfig).strokePx +
      outerWOf (opaqueImg 100 100) (mergeOptions emptyConfig).gapPx
        (mergeOptions emptyConfig).strokePx ≤
      ((canvasWidthOf (opaqueImg 100 100) : ℤ) : ℚ) ∧
    0 ≤ outerYOf (opaqueImg 100 100) (mergeOptions emptyConfig).gapPx
        (mergeOptions emptyConfig).strokePx ∧
    outerYOf (opaqueImg 100 100) (mergeOptions emptyConfig).gapPx
        (mergeOptions emptyConfig).strokePx +
      outerHOf (opaqueImg 100 100) (mergeOptions emptyConfig).gapPx
        (mergeOptions emptyConfig).strokePx ≤
      ((canvasHeightOf (opaqueImg 100 100) : ℤ) : ℚ) ∧
    ∀ out, applyContourBorder (opaqueImg 100 100) emptyConfig rng0 = .ok out →
      ((opaqueImg 100 100).width : ℚ) +
        2 * ((mergeOptions emptyConfig).gapPx + (mergeOptions emptyConfig).strokePx) ≤
        ((out.width : ℤ) : ℚ) ∧
      ((opaqueImg 100 100).height : ℚ) +
        2 * ((mergeOptions emptyConfig).gapPx + (mergeOptions emptyConfig).strokePx) ≤
        ((out.height : ℤ) : ℚ)) :=
  ⟨except_isOk_exists _
      (applyContourBorder_isOk (opaqueImg 100 100) emptyConfig rng0
        (fun _ => ⟨le_refl 0, by norm_num [rng0]⟩)
        (by norm_num [mergeOptions, emptyConfig, DEFAULT_OPTIONS])
        (by norm_num [mergeOptions, emptyConfig, DEFAULT_OPTIONS])),
    expanded_canvas_fits (opaqueImg 100 100) emptyConfig rng0
      (by norm_num [mergeOptions, emptyConfig, DEFAULT_OPTIONS, opaqueImg])
      (by norm_num [mergeOptions, emptyConfig, DEFAULT_OPTIONS, opaqueImg])⟩

lemma innerCanvasOf_width (img : Canvas) (g : ℚ) :
    (innerCanvasOf img g).width = canvasWidthOf img := rfl

lemma innerCanvasOf_height (img : Canvas) (g : ℚ) :
    (innerCanvasOf img g).height = canvasHeightOf img := rfl

/-- Counterexample for C3: on a uniformly half-transparent (alpha 128)
4×4 subject with gap 1 and stroke 1, pixel (3,3) has positive alpha in
the inner silhouette (128) and still gets positive alpha (63) in the
ring, because `destination-out` only attenuates by the inner alpha
instead of removing every pixel with inner alpha > 0. -/
theorem ring_meets_translucent_inner :
    0 < (innerCanvasOf (halfImg 4 4) (mergeOptions cfg11).gapPx).alpha 3 3 ∧
    0 < (createBorderMask (halfImg 4 4) cfg11 rng0).alpha 3 3 := by
  constructor
  · norm_num [cfg11, mergeOptions, DEFAULT_OPTIONS, innerCanvasOf, maskCanvasOf,
      drawImageScaled, blankCanvas, Canvas.read, canvasWidthOf, canvasHeightOf,
      imageXOf, imageYOf, innerXOf, innerYOf, innerWOf, innerHOf, halfImg,
      sourceOverAlpha]
  · norm_num [cfg11, createBorderMask, mergeOptions, DEFAULT_OPTIONS, sourceInFill,
      destOutDraw, outerCanvasOf, innerCanvasOf, maskCanvasOf, drawImageScaled,
      blankCanvas, Canvas.read, canvasWidthOf, canvasHeightOf, imageXOf, imageYOf,
      innerXOf, innerYOf, innerWOf, innerHOf, outerXOf, outerYOf, outerWOf, outerHOf,
      halfImg, sourceOverAlpha]

/-- C3 amended: the ring produced by `createBorderMask` is empty at
every pixel where the inner silhouette is fully opaque (alpha = 255);
in particular, for binary (0/255) silhouettes the ring never meets the
inner silhouette.  (Partially transparent inner pixels can survive into
the ring, see the counterexample.) -/
theorem ring_avoids_opaque_inner (img : Canvas) (c : ContourBorderOptions)
    (rng : ℕ → ℚ) (x y : ℤ)
    (h : (innerCanvasOf img (mergeOptions c).gapPx).alpha x y = 255) :
    (createBorderMask img c rng).alpha x y = 0 := by
  have hb : 0 ≤ x ∧ x < canvasWidthOf img ∧ 0 ≤ y ∧ y < canvasHeightOf img := by
    by_contra hb
    have h0 : (innerCanvasOf img (mergeOptions c).gapPx).alpha x y = 0 := by
      simp only [innerCanvasOf, drawImageScaled, blankCanvas]
      rw [if_neg]
      intro hP
      exact hb ⟨hP.1, hP.2.1, hP.2.2.1, hP.2.2.2.1⟩
    omega
  obtain ⟨hx0, hxw, hy0, hyh⟩ := hb
  have hread : (innerCanvasOf img (mergeOptions c).gapPx).read x y = 255 := by
    simp only [Canvas.read, innerCanvasOf_width, innerCanvasOf_height]
    rw [if_pos ⟨hx0, hxw, hy0, hyh⟩]
    exact h
  simp only [createBorderMask, sourceInFill, destOutDraw, drawImageScaled,
    outerCanvasOf, blankCanvas]
  rw [if_pos ⟨hx0, hxw, hy0, hyh⟩, if_pos ⟨hx0, hxw, hy0, hyh⟩, hread]
  simp

/-- Witness for C3's amended statement: on a 2×2 opaque subject with the
default configuration, the inner silhouette is fully opaque at (1,1) and
the ring is empty there. -/
theorem ring_avoids_opaque_inner_witness :
    (createBorderMask (opaqueImg 2 2) emptyConfig rng0).alpha 1 1 = 0 :=
  ring_avoids_opaque_inner (opaqueImg 2 2) emptyConfig rng0 1 1
    (by
      norm_num [emptyConfig, mergeOptions, DEFAULT_OPTIONS, innerCanvasOf, maskCanvasOf,
        drawImageScaled, blankCanvas, Canvas.read, canvasWidthOf, canvasHeightOf,
        imageXOf, imageYOf, innerXOf, innerYOf, innerWOf, innerHOf, opaqueImg,
        sourceOverAlpha])

lemma floor_between_of_eq (n x : ℤ) (e q : ℚ) (hq0 : 0 ≤ q) (hq1 : q ≤ 1)
    (he : e = (n : ℚ) + ((x : ℚ) - (n : ℚ)) * q) :
    min x n ≤ ⌊e⌋ ∧ ⌊e⌋ ≤ max x n := by
  rcases le_total (x : ℚ) (n : ℚ) with hxn | hxn
  · have hxn' : x ≤ n := by exact_mod_cast hxn
    have h1 : (x : ℚ) ≤ e := by nlinarith [mul_nonneg (sub_nonneg.mpr hxn) (sub_nonneg.mpr hq1)]
    have h2 : e ≤ (n : ℚ) := by nlinarith [mul_nonneg (sub_nonneg.mpr hxn) hq0]
    exact ⟨by rw [min_eq_left hxn']; exact Int.le_floor.mpr h1,
      by rw [max_eq_right hxn']; simpa using Int.floor_le_floor h2⟩
  · have hxn' : n ≤ x := by exact_mod_cast hxn
    have h1 : (n : ℚ) ≤ e := by nlinarith [mul_nonneg (sub_nonneg.mpr hxn) hq0]
    have h2 : e ≤ (x : ℚ) := by nlinarith [mul_nonneg (sub_nonneg.mpr hxn) (sub_nonneg.mpr hq1)]
    exact ⟨by rw [min_eq_right hxn']; exact Int.le_floor.mpr h1,
      by rw [max_eq_left hxn']; simpa using Int.floor_le_floor h2⟩

/-- Counterexample for C1: a 16×16 mask whose only opaque pixel sits at
the corner (15,15), with `gapPx = 0 ≥ 0` and `strokePx = 4 > 0`.  The
inner silhouette is opaque at canvas pixel (23,23), but the outer
silhouette (before ring subtraction) is transparent there: the
scale-about-center expansion moves an off-center blob outward, so the
outer silhouette does not contain the inner one for masks that are not
star-shaped about the canvas center. -/
theorem outer_misses_inner_pixel :
    (0 : ℚ) ≤ 0 ∧ (0 : ℚ) < 4 ∧
    0 < (innerCanvasOf (onePixelImg 16 16 15 15) 0).alpha 23 23 ∧
    (outerCanvasOf (onePixelImg 16 16 15 15) 0 4).alpha 23 23 = 0 := by
  refine ⟨le_refl 0, by norm_num, ?_, ?_⟩
  · norm_num [innerCanvasOf, maskCanvasOf, drawImageScaled, blankCanvas, Canvas.read,
      canvasWidthOf, canvasHeightOf, imageXOf, imageYOf, innerXOf, innerYOf,
      innerWOf, innerHOf, onePixelImg, sourceOverAlpha]
  · norm_num [outerCanvasOf, innerCanvasOf, maskCanvasOf, drawImageScaled, blankCanvas,
      Canvas.read, canvasWidthOf, canvasHeightOf, imageXOf, imageYOf, innerXOf, innerYOf,
      innerWOf, innerHOf, outerXOf, outerYOf, outerWOf, outerHOf, onePixelImg,
      sourceOverAlpha]

/-- C1 amended: for `gapPx ≥ 0` and `strokePx > 0`, the outer silhouette
contains the inner silhouette at every pixel, provided the inner
silhouette's opaque region is orthogonally star-shaped about the canvas
center (as it is for the centered convex blobs the expansion is designed
for — but not for arbitrary masks, see the counterexample). -/
theorem outer_contains_inner_of_orthoStar (img : Canvas) (g s : ℚ)
    (hW : 0 < img.width) (hH : 0 < img.height) (hg : 0 ≤ g) (hs : 0 < s)
    (hstar : orthoStarOn (innerCanvasOf img g) img.width img.height)
    (x y : ℤ) (hpos : 0 < (innerCanvasOf img g).alpha x y) :
    0 < (outerCanvasOf img g s).alpha x y := by
  have hWq : (0 : ℚ) < (img.width : ℚ) := by exact_mod_cast hW
  have hHq : (0 : ℚ) < (img.height : ℚ) := by exact_mod_cast hH
  have hguard : 0 ≤ x ∧ x < canvasWidthOf img ∧ 0 ≤ y ∧ y < canvasHeightOf img ∧
      innerXOf img g ≤ (x : ℚ) ∧ (x : ℚ) < innerXOf img g + innerWOf img g ∧
      innerYOf img g ≤ (y : ℚ) ∧ (y : ℚ) < innerYOf img g + innerHOf img g := by
    by_contra hng
    have h0 : (innerCanvasOf img g).alpha x y = 0 := by
      simp only [innerCanvasOf, drawImageScaled, blankCanvas]
      rw [if_neg hng]
    omega
  obtain ⟨hx0, hxw, hy0, hyh, hxi, hxi2, hyi, hyi2⟩ := hguard
  have houter : 0 ≤ x ∧ x < canvasWidthOf img ∧ 0 ≤ y ∧ y < canvasHeightOf img ∧
      outerXOf img g s ≤ (x : ℚ) ∧ (x : ℚ) < outerXOf img g s + outerWOf img g s ∧
      outerYOf img g s ≤ (y : ℚ) ∧ (y : ℚ) < outerYOf img g s + outerHOf img g s := by
    refine ⟨hx0, hxw, hy0, hyh, ?_, ?_, ?_, ?_⟩
    · simp only [outerXOf]
      linarith
    · simp only [outerXOf, outerWOf]
      linarith
    · simp only [outerYOf]
      linarith
    · simp only [outerYOf, outerHOf]
      linarith
  have hdenx : (0 : ℚ) < outerWOf img g s := by
    simp only [outerWOf, innerWOf]
    linarith
  have hdeny : (0 : ℚ) < outerHOf img g s := by
    simp only [outerHOf, innerHOf]
    linarith
  have hqx0 : 0 ≤ innerWOf img g / outerWOf img g s :=
    div_nonneg (by simp only [innerWOf]; linarith) hdenx.le
  have hqx1 : innerWOf img g / outerWOf img g s ≤ 1 := by
    rw [div_le_one hdenx]
    simp only [innerWOf, outerWOf]
    linarith
  have hqy0 : 0 ≤ innerHOf img g / outerHOf img g s :=
    div_nonneg (by simp only [innerHOf]; linarith) hdeny.le
  have hqy1 : innerHOf img g / outerHOf img g s ≤ 1 := by
    rw [div_le_one hdeny]
    simp only [innerHOf, outerHOf]
    linarith
  have hex : innerXOf img g + ((x : ℚ) - outerXOf img g s) * innerWOf img g / outerWOf img g s =
      (img.width : ℚ) + ((x : ℚ) - (img.width : ℚ)) * (innerWOf img g / outerWOf img g s) := by
    simp only [innerXOf, imageXOf, innerWOf, outerXOf, outerWOf, canvasWidthOf]
    push_cast
    field_simp
    ring
  have hey : innerYOf img g + ((y : ℚ) - outerYOf img g s) * innerHOf img g / outerHOf img g s =
      (img.height : ℚ) + ((y : ℚ) - (img.height : ℚ)) * (innerHOf img g / outerHOf img g s) := by
    simp only [innerYOf, imageYOf, innerHOf, outerYOf, outerHOf, canvasHeightOf]
    push_cast
    field_simp
    ring
  have hgxb := floor_between_of_eq img.width x _ _ hqx0 hqx1 hex
  have hgyb := floor_between_of_eq img.height y _ _ hqy0 hqy1 hey
  have hwc : canvasWidthOf img = 2 * img.width := rfl
  have hhc : canvasHeightOf img = 2 * img.height := rfl
  simp only [outerCanvasOf, drawImageScaled, blankCanvas]
  rw [if_pos houter]
  simp only [sourceOverAlpha, Nat.zero_mul, Nat.zero_div, Nat.add_zero]
  rw [Canvas.read, if_pos]
  · exact hstar x
      (Finset.mem_Icc.mpr ⟨hx0, by rw [innerCanvasOf_width, hwc]; rw [hwc] at hxw; omega⟩) y
      (Finset.mem_Icc.mpr ⟨hy0, by rw [innerCanvasOf_height, hhc]; rw [hhc] at hyh; omega⟩)
      _ (Finset.mem_Icc.mpr hgxb) _ (Finset.mem_Icc.mpr hgyb) hpos
  · refine ⟨?_, ?_, ?_, ?_⟩
    · exact le_trans (by omega : (0 : ℤ) ≤ min x img.width) hgxb.1
    · rw [innerCanvasOf_width, hwc]
      rw [hwc] at hxw
      have := hgxb.2
      omega
    · exact le_trans (by omega : (0 : ℤ) ≤ min y img.height) hgyb.1
    · rw [innerCanvasOf_height, hhc]
      rw [hhc] at hyh
      have := hgyb.2
      omega

set_option maxHeartbeats 2000000 in
lemma inner22_all (u v : ℤ) (h1 : 0 ≤ u) (h2 : u < 4) (h3 : 0 ≤ v) (h4 : v < 4) :
    (innerCanvasOf (opaqueImg 2 2) 1).alpha u v = 255 := by
  interval_cases u <;> interval_cases v <;>
    norm_num [innerCanvasOf, maskCanvasOf, drawImageScaled, blankCanvas, Canvas.read,
      canvasWidthOf, canvasHeightOf, imageXOf, imageYOf, innerXOf, innerYOf,
      innerWOf, innerHOf, opaqueImg, sourceOverAlpha]

lemma star22 : orthoStarOn (innerCanvasOf (opaqueImg 2 2) 1) 2 2 := by
  intro x hx y hy u hu v hv _
  rw [innerCanvasOf_width] at hx
  rw [innerCanvasOf_height] at hy
  simp only [Finset.mem_Icc, canvasWidthOf, canvasHeightOf, opaqueImg] at hx hy hu hv
  have h := inner22_all u v (by omega) (by omega) (by omega) (by omega)
  omega

/-- Witness for C1's amended statement: on a 2×2 opaque subject with
gap 1 and stroke 1 the inner silhouette is orthogonally star-shaped
about the canvas center, it is opaque at (1,1), and the outer silhouette
is opaque there too. -/
theorem outer_contains_inner_of_orthoStar_witness :
    0 < (outerCanvasOf (opaqueImg 2 2) 1 1).alpha 1 1 :=
  outer_contains_inner_of_orthoStar (opaqueImg 2 2) 1 1
    (by decide) (by decide) (by norm_num) (by norm_num) star22 1 1
    (by rw [inner22_all 1 1 (by norm_num) (by norm_num) (by norm_num) (by norm_num)]
        norm_num)
